import Mathlib

/-!
Shallow embedding of `octocheck.py` (sigmaris/octocheck): the annotation data
model, the three parsers (PEP8 style lines, Cargo JSON diagnostics, xUnit XML
test reports), and the aggregation / batching logic of `cli`.

Conventions of the embedding:
* Python `str` is Lean `String`; Python string helpers that the source relies
  on (`split(':')`, `strip()`, `startswith`, `in`, `int(...)`, slicing) are
  re-implemented below as structurally recursive char-list functions so that
  concrete inputs evaluate inside the kernel.
* A Python value that may be `None` is an `Option`.
* Python `set` is modelled as a duplicate-free `List` with a membership-guarded
  `add` (`setAdd`); only membership and cardinality of these collections are
  observable to the properties, not iteration order.
* The class `Annotation` of the source is named `Annot` here; its Python name
  cannot be used verbatim in this file.
* Fallible code returns an explicit result variant (an uncaught Python
  exception is a dedicated constructor), never a Lean exception.
-/

namespace Octocheck

/-- Python string helpers: a character is whitespace for `str.strip()`. -/
def isPyWhitespace (c : Char) : Bool :=
  c = ' ' || c = '\t' || c = '\n' || c = '\r' || c = '\x0b' || c = '\x0c'

/-- Python `str.strip()` on the underlying character list. -/
def trimChars (cs : List Char) : List Char :=
  ((cs.dropWhile isPyWhitespace).reverse.dropWhile isPyWhitespace).reverse

/-- Python `str.strip()`. -/
def pyStrip (s : String) : String := String.mk (trimChars s.data)

/-- Auxiliary for `pySplit`: split a character list on a separator character,
as Python `str.split(sep)` does with an explicit single-character separator
(empty input gives one empty field). -/
def splitChars (sep : Char) : List Char → List (List Char)
  | [] => [[]]
  | c :: rest =>
    let groups := splitChars sep rest
    if c = sep then [] :: groups
    else
      match groups with
      | g :: gs => (c :: g) :: gs
      | [] => [[c]]

/-- Python `s.split(sep)` for a single-character separator. -/
def pySplit (sep : Char) (s : String) : List String :=
  (splitChars sep s.data).map String.mk

/-- Python `sep.join(parts)` for separator `":"`. -/
def joinColon : List String → String
  | [] => ""
  | [s] => s
  | s :: rest => s ++ ":" ++ joinColon rest

/-- Is `pre` a prefix of the second list (Python `str.startswith`)? -/
def isPrefixChars : List Char → List Char → Bool
  | [], _ => true
  | _ :: _, [] => false
  | a :: as, b :: bs => a = b && isPrefixChars as bs

/-- Python `s.startswith(pre)`. -/
def pyStartsWith (s pre : String) : Bool := isPrefixChars pre.data s.data

/-- Does `sub` occur as a contiguous sublist (substring search)? -/
def containsChars (sub : List Char) : List Char → Bool
  | [] => isPrefixChars sub []
  | c :: rest => isPrefixChars sub (c :: rest) || containsChars sub rest

/-- Python `sub in s` for strings. -/
def pyContains (s sub : String) : Bool := containsChars sub.data s.data

/-- Python `int(s)`: strip whitespace, allow one sign, then decimal digits.
(The source only ever feeds plain decimal tokens to `int`; the underscore
digit-grouping Python also accepts is not modelled.)  `none` means `int`
raises `ValueError`. -/
def pyInt? (s : String) : Option Int :=
  let t := trimChars s.data
  let core : List Char :=
    match t with
    | '-' :: rest => rest
    | '+' :: rest => rest
    | _ => t
  let neg : Bool := match t with | '-' :: _ => true | _ => false
  if core ≠ [] && core.all Char.isDigit then
    let n : Nat := core.foldl (fun a c => a * 10 + (c.toNat - 48)) 0
    some (if neg then -(n : Int) else (n : Int))
  else none

/-- Python `s[:n]` for a character count `n`. -/
def pySlice (s : String) (n : Nat) : String := String.mk (s.data.take n)

/-- Python `str(x)` for an optional string (`None` renders as `"None"`). -/
def pyStrOpt : Option String → String
  | none => "None"
  | some s => s

/-- The `Annotation` value class of the source (`__slots__` fields; equality
and hashing are structural over all fields). -/
structure Annot where
  path : String
  start_line : Int
  end_line : Int
  level : String
  message : String
  start_column : Option Int := none
  end_column : Option Int := none
  title : Option String := none
  raw_details : Option String := none
deriving DecidableEq

/-- The `Status(enum.IntEnum)` of the source, with `SUCCESS = 1 < NEUTRAL = 2 < FAILURE = 3`. -/
inductive Status where
  | SUCCESS
  | NEUTRAL
  | FAILURE
deriving DecidableEq

/-- The integer value of a `Status` member. -/
def Status.toNat : Status → Nat
  | .SUCCESS => 1
  | .NEUTRAL => 2
  | .FAILURE => 3

/-- Python `max` on two `Status` values (`IntEnum` comparison; `max(a, b)`
returns `b` exactly when `b > a`). -/
def statusMax (a b : Status) : Status :=
  if a.toNat < b.toNat then b else a

/-- Python `set.add` on the duplicate-free list model of a Python set. -/
def setAdd (anns : List Annot) (a : Annot) : List Annot :=
  if a ∈ anns then anns else anns ++ [a]

/-- The mutable state of one `Parser` instance: `self.annotations` and
`self.status`. -/
structure PState where
  annotations : List Annot
  status : Status
deriving DecidableEq

/-- The state after `Parser.__init__`: empty annotation set, status `SUCCESS`. -/
def initState : PState := { annotations := [], status := Status.SUCCESS }

/-! Section: the Pep8Parser embedding. -/

/-- Outcome of one iteration of `Pep8Parser.parse_fileobj`'s loop on a single
input line: the unpack `path, line, column, *msgparts = line.split(':')`
raising `ValueError` is caught (`skipped`); an `int()` failure inside the
`Annotation(...)` call is uncaught (`failed`); otherwise one annotation. -/
inductive Pep8LineResult where
  | skipped
  | failed
  | ann (a : Annot)
deriving DecidableEq

/-- One loop iteration of `Pep8Parser.parse_fileobj` on one line. -/
def pep8ParseLine (line : String) : Pep8LineResult :=
  match pySplit ':' line with
  | path :: lineNo :: column :: msgparts =>
    let raw_message := joinColon msgparts
    let message := pyStrip raw_message
    let level := if pyStartsWith message "E" then "failure" else "warning"
    match pyInt? lineNo, pyInt? column with
    | some ln, some col =>
      .ann { path := path, start_line := ln, end_line := ln, level := level,
             message := message, start_column := some col, end_column := some col }
    | _, _ => .failed
  | _ => .skipped

/-- The loop of `Pep8Parser.parse_fileobj` over the lines of the file: the boolean reports
whether an uncaught `ValueError` aborted the loop (the instance keeps the
state accumulated up to that point, as the Python object does). -/
def pep8Run (st : PState) : List String → PState × Bool
  | [] => (st, false)
  | line :: rest =>
    match pep8ParseLine line with
    | .skipped => pep8Run st rest
    | .failed => (st, true)
    | .ann a => pep8Run { annotations := setAdd st.annotations a, status := Status.FAILURE } rest

/-! Section: the XUnitParser embedding. -/

/-- An XML element as `xml.etree` presents it: tag, attribute mapping, text
content, child elements. -/
structure XmlElem where
  tag : String
  attrib : List (String × String)
  text : Option String
  children : List XmlElem

/-- Python `elem.iterfind(tag)`: the direct children with the given tag. -/
def iterfind (e : XmlElem) (t : String) : List XmlElem :=
  e.children.filter (fun c => c.tag = t)

/-- Python `elem.attrib.get(key)` (XML attributes are unique per element, so the
first match is the match). -/
def getAttr (e : XmlElem) (key : String) : Option String :=
  (e.attrib.find? (fun p => p.1 = key)).map (fun p => p.2)

/-- Python truthiness filter on an optional string: `None` and the empty
string are falsy. -/
def truthyOptStr : Option String → Option String
  | some v => if v = "" then none else some v
  | none => none

/-- Python `elem.attrib.get(key)` followed by the truthiness test the source applies
(`if error.attrib.get('message'):` — a missing or empty attribute is falsy). -/
def truthyAttr (e : XmlElem) (key : String) : Option String :=
  truthyOptStr (getAttr e key)

/-- Outcome of `XUnitParser._annotation_from_case`: one of the early
`return`s (`skip`), an uncaught `ValueError` from `int(line)` (`failed`), or
the annotation added to `self.annotations`. -/
inductive CaseResult where
  | skip
  | failed
  | ann (a : Annot)
deriving DecidableEq

/-- The body of `XUnitParser._annotation_from_case(case, error)`. -/
def annotationFromCase (caseEl errEl : XmlElem) : CaseResult :=
  match (truthyAttr errEl "message").orElse (fun _ => truthyAttr errEl "type") with
  | none => .skip
  | some message =>
    match truthyAttr caseEl "file" with
    | none => .skip
    | some path =>
      match truthyAttr caseEl "line" with
      | none => .skip
      | some line =>
        match pyInt? line with
        | none => .failed
        | some n =>
          let raw : Option String :=
            match errEl.text with
            | some t => if t = "" then none else some (pySlice t 65536)
            | none => none
          .ann { path := path, start_line := n, end_line := n, level := "failure",
                 message := message, raw_details := raw }

/-- Errors that can escape `XUnitParser.parse_fileobj`: the explicit
`ValueError("Invalid XUnit format.")` on an unrecognized root (the envelope
`FormatError` of the specification), or the uncaught `ValueError` from
`int(line)`. -/
inductive XUnitErr where
  | formatError
  | valueError
deriving DecidableEq

/-- One `error`/`failure` child of a test case: `_annotation_from_case` then
`self.status = Status.FAILURE` (the status is set even when the annotation was
skipped; on an uncaught exception neither happens and the error propagates,
short-circuiting the rest of the parse). -/
def xunitChildStep (caseEl : XmlElem) (acc : PState × Option XUnitErr) (child : XmlElem) :
    PState × Option XUnitErr :=
  match acc with
  | (st, some e) => (st, some e)
  | (st, none) =>
    match annotationFromCase caseEl child with
    | .failed => (st, some .valueError)
    | .skip => ({ st with status := Status.FAILURE }, none)
    | .ann a => ({ annotations := setAdd st.annotations a, status := Status.FAILURE }, none)

/-- One test case: its `error` children, then its `failure` children. -/
def xunitCaseStep (acc : PState × Option XUnitErr) (caseEl : XmlElem) :
    PState × Option XUnitErr :=
  let acc1 := (iterfind caseEl "error").foldl (xunitChildStep caseEl) acc
  (iterfind caseEl "failure").foldl (xunitChildStep caseEl) acc1

/-- One test suite: its `testcase` children. -/
def xunitSuiteStep (acc : PState × Option XUnitErr) (suite : XmlElem) :
    PState × Option XUnitErr :=
  (iterfind suite "testcase").foldl xunitCaseStep acc

/-- The body of `XUnitParser.parse_fileobj` on an already-deserialized XML document (the
`etree.fromstring` boundary is outside the model). -/
def xunitParseFileobj (st : PState) (root : XmlElem) : PState × Option XUnitErr :=
  if root.tag = "testsuites" then
    (iterfind root "testsuite").foldl xunitSuiteStep (st, none)
  else if root.tag = "testsuite" then
    ([root] : List XmlElem).foldl xunitSuiteStep (st, none)
  else (st, some .formatError)

/-! Section: the CargoJSONParser embedding. -/

/-- One element of a diagnostic's `spans` array (the fields the source
reads). -/
structure Span where
  file_name : Option String := none
  line_start : Option Int := none
  line_end : Option Int := none
  column_start : Option Int := none
  column_end : Option Int := none
  is_primary : Bool := false
  label : Option String := none
  suggested_replacement : Option String := none
deriving DecidableEq

/-- The diagnostic's `code` object (`code` and `explanation` fields). -/
structure CodeInfo where
  code : Option String := none
  explanation : Option String := none
deriving DecidableEq

/-- A compiler diagnostic message: the fields of the JSON `message` object
that the source reads, with `children` nesting sub-diagnostics. -/
structure Message where
  message : Option String := none
  level : Option String := none
  rendered : Option String := none
  code : Option CodeInfo := none
  spans : List Span := []
  children : List Message := []

/-- The body of `CargoJSONParser._get_primary_span_from_message`: first span flagged
primary, if any. -/
def getPrimarySpan (m : Message) : Option Span :=
  (m.spans.filter (fun span => span.is_primary)).head?

/-- The annotation level derived from the message's `level` text
(`'error' in level`, `'warning' in level`, else `notice`). -/
def cargoAnnLevel (level : String) : String :=
  if pyContains level "error" then "failure"
  else if pyContains level "warning" then "warning"
  else "notice"

/-- Does processing a message with this `level` text set
`self.status = Status.FAILURE` (the `error` and `warning` branches do)? -/
def cargoLevelTriggers (level : String) : Bool :=
  pyContains level "error" || pyContains level "warning"

/-- The `title` value after the primary-span prefixing of
`_annotation_from_message` (lines building `primary_ref` and prefixing the
title).  When called for a child, the primary span is the parent's; reachable
parents are nonempty dicts, so Python's `if parent:` is `isSome` here.  A
`None` title interpolated into the f-string renders as `"None"`. -/
def buildTitle (m : Message) (parent : Option Message) : Option String :=
  let title := m.message
  let primary_span :=
    match parent with
    | some p => getPrimarySpan p
    | none => getPrimarySpan m
  let primary_ref : String :=
    match primary_span with
    | none => ""
    | some sp =>
      match sp.file_name, sp.line_start with
      | some path, some ln => if path ≠ "" ∧ ln ≠ 0 then path ++ "#" ++ toString ln else ""
      | _, _ => ""
  if primary_ref ≠ "" then some (primary_ref ++ ": " ++ pyStrOpt title) else title

/-- The `base_raw_details` blob: rendered text plus error-code line plus
explanation, with Python truthiness on each piece. -/
def buildRawDetails (m : Message) : String :=
  let base : String :=
    match m.rendered with
    | some r => if r = "" then "" else r ++ "\n"
    | none => ""
  match m.code with
  | none => base
  | some c =>
    let base1 :=
      match c.code with
      | some ec => if ec = "" then base else base ++ "Error code " ++ ec ++ "\n"
      | none => base
    match c.explanation with
    | some ex => if ex = "" then base1 else base1 ++ ex
    | none => base1

/-- The body of the per-span loop of `_annotation_from_message`: `none` when
the span is skipped (missing file or start line, or no derivable label). -/
def spanAnnotationFrom (annLevel : String) (title : Option String) (base : String)
    (span : Span) : Option Annot :=
  match span.file_name with
  | none => none
  | some path =>
    match span.line_start with
    | none => none
    | some line_start =>
      let line_end := span.line_end.getD line_start
      let replacementTruthy : Bool :=
        match span.suggested_replacement with
        | some r => r ≠ ""
        | none => false
      let label? : Option String :=
        match span.label with
        | some l => some l
        | none =>
          if replacementTruthy then
            some ("Suggested replacement: " ++ (span.suggested_replacement.getD ""))
          else
            match title with
            | some t => some t
            | none => none
      match label? with
      | none => none
      | some label =>
        let cols : Option Int × Option Int :=
          if line_start = line_end then (span.column_start, span.column_end) else (none, none)
        some { path := path, start_line := line_start, end_line := line_end,
               level := annLevel, message := label,
               start_column := cols.1, end_column := cols.2,
               title := truthyOptStr title,
               raw_details := if base = "" then none else some base }

/-- The whole span loop: fold `spanAnnotationFrom` over the message's spans,
adding each produced annotation to the set. -/
def spanAnnotations (anns : List Annot) (annLevel : String) (title : Option String)
    (base : String) (spans : List Span) : List Annot :=
  spans.foldl
    (fun acc span =>
      match spanAnnotationFrom annLevel title base span with
      | some a => setAdd acc a
      | none => acc)
    anns

mutual

/-- The body of `CargoJSONParser._annotation_from_message(message, parent)`: skip if
`level` is absent, set status on error/warning levels, emit one annotation per
usable span, then recurse into the children with this message as parent. -/
def annotationFromMessage (st : PState) (m : Message) (parent : Option Message) : PState :=
  match m.level with
  | none => st
  | some level =>
    let st1 : PState :=
      if cargoLevelTriggers level then { st with status := Status.FAILURE } else st
    let title := buildTitle m parent
    let base := buildRawDetails m
    let anns := spanAnnotations st1.annotations (cargoAnnLevel level) title base m.spans
    processChildren { st1 with annotations := anns } m.children m
termination_by sizeOf m
decreasing_by cases m; simp

/-- The `for child in children` loop at the end of
`_annotation_from_message`. -/
def processChildren (st : PState) (cs : List Message) (par : Message) : PState :=
  match cs with
  | [] => st
  | c :: rest => processChildren (annotationFromMessage st c (some par)) rest par
termination_by sizeOf cs
decreasing_by all_goals simp; try omega

end

mutual

/-- Is the whole diagnostic tree informational: every `level` in it (when
present) contains neither `"error"` nor `"warning"`? -/
def informationalB (m : Message) : Bool :=
  (match m.level with
   | none => true
   | some level => !cargoLevelTriggers level) && informationalListB m.children
termination_by sizeOf m
decreasing_by cases m; simp

/-- The conjunction of `informationalB` over a list of children. -/
def informationalListB (cs : List Message) : Bool :=
  match cs with
  | [] => true
  | c :: rest => informationalB c && informationalListB rest
termination_by sizeOf cs
decreasing_by all_goals simp; try omega

end

/-- One line of the Cargo JSON input, after the `json.loads` boundary:
either a line that failed to decode (skipped) or a decoded object with its
`reason` field and its `message` object.  (A decoded `message` that is an
empty dict is falsy in Python and skipped there; processing it here is a
no-op as well, since its `level` is absent.) -/
inductive CargoLine where
  | invalid
  | obj (reason : Option String) (message : Option Message)

/-- One loop iteration of `CargoJSONParser.parse_fileobj`. -/
def cargoStep (st : PState) (l : CargoLine) : PState :=
  match l with
  | .invalid => st
  | .obj reason message =>
    if reason = some "compiler-message" then
      match message with
      | some m => annotationFromMessage st m none
      | none => st
    else st

/-- The loop of `CargoJSONParser.parse_fileobj` over the (decoded) lines of the file. -/
def cargoRun (st : PState) (lines : List CargoLine) : PState :=
  lines.foldl cargoStep st

/-- Is this decoded line one that triggers no failure status: a skipped line,
a non-compiler-message record, or a fully informational diagnostic tree? -/
def cargoLineInformational : CargoLine → Bool
  | .invalid => true
  | .obj reason message =>
    if reason = some "compiler-message" then
      match message with
      | some m => informationalB m
      | none => true
    else true

/-! Section: aggregation and batching in `cli`.

The `cli` function's parsing stage runs each configured parser over its
matched files and fills `parser_outputs` (per parser: the union of annotation
sets and the set of per-file summary strings) while folding `overall_status`.
Filesystem globbing and the network boundary are outside the model; the
aggregation state they produce is the input of the functions below. -/

/-- The entries of the `_parsers` registry, in registry order
(`[CargoJSONParser, Pep8Parser, XUnitParser]`). -/
inductive PFormat where
  | cargo
  | pep8
  | xunit
deriving DecidableEq

/-- The `_parsers` list, in source order. -/
def parsersList : List PFormat := [PFormat.cargo, PFormat.pep8, PFormat.xunit]

/-- The `display_name()` of each registry entry. -/
def displayName : PFormat → String
  | .cargo => "Cargo JSON"
  | .pep8 => "PEP8"
  | .xunit => "xUnit"

/-- One entry of `parser_outputs`: the accumulated annotation set and the set
of per-file `file_info` summary strings of one parser. -/
structure POutput where
  annotations : List Annot
  file_info : List String
deriving DecidableEq

/-- One per-format line of the `details` text, decomposed into the counts it
interpolates (`f"{file_count} {display_name} files parsed, {ann_count}
{display_name} annotations.\n\n"`). -/
structure DetailLine where
  fmt : PFormat
  fileCount : Nat
  annCount : Nat
deriving DecidableEq

/-- The `details` loop `for p in _parsers:` of `cli`, as the list of lines it
appends.  The source reads `output = parser_outputs[parser]` where `parser` is
the loop variable left over from the earlier parsing loop `for parser in
_parsers:`, whose final value is the last registry entry — so every iteration
reads the same output, and the guard `if output['file_info']:` also tests that
same output. -/
def detailLines (outputs : PFormat → POutput) : List DetailLine :=
  let parserVar := PFormat.xunit
  parsersList.foldl
    (fun acc p =>
      let output := outputs parserVar
      if output.file_info.isEmpty then acc
      else acc ++ [{ fmt := p, fileCount := output.file_info.length,
                     annCount := output.annotations.length }])
    []

/-- Render one detail line back into the f-string of the source. -/
def renderDetail (d : DetailLine) : String :=
  toString d.fileCount ++ " " ++ displayName d.fmt ++ " files parsed, " ++
    toString d.annCount ++ " " ++ displayName d.fmt ++ " annotations.\n\n"

/-- The complete `details` string. -/
def detailsText (outputs : PFormat → POutput) : String :=
  String.join ((detailLines outputs).map renderDetail)

/-- The last format, in registry order, that the invocation configured
(supplied at least one glob pattern for); `none` when no format is
configured. -/
def lastConfigured (cfg : PFormat → Bool) : Option PFormat :=
  parsersList.foldl (fun acc p => if cfg p then some p else acc) none

/-- The `overall_status = max(overall_status, status)` fold of `cli`, starting
from `Status.SUCCESS`, over the statuses of the per-file parser runs. -/
def overallStatus (runs : List Status) : Status :=
  runs.foldl statusMax Status.SUCCESS

/-- The batching `groups = itertools.zip_longest(*[iter(all_annotations)] *
50)`: fifty references to one iterator yield, per round, the next fifty
elements, padded with `None` once the iterator is exhausted; an exhausted
iterator on the first pull ends the whole zip, so an empty set yields no
groups at all.  Modelled by accumulating the current round (`cur`, at most 49
elements carried). -/
def groupsAux (cur : List Annot) : List Annot → List (List (Option Annot))
  | [] =>
    if cur.isEmpty then []
    else [cur.map some ++ List.replicate (50 - cur.length) none]
  | a :: rest =>
    if cur.length = 49 then ((cur ++ [a]).map some) :: groupsAux [] rest
    else groupsAux (cur ++ [a]) rest

/-- The groups produced by the `zip_longest` batching over the iteration order
of `all_annotations`. -/
def annotationGroups (l : List Annot) : List (List (Option Annot)) :=
  groupsAux [] l

/-- Python `itertools.takewhile(lambda i: i is not None, x)` over one group: the
annotations of one submitted batch. -/
def batchFromGroup (g : List (Option Annot)) : List Annot :=
  (g.takeWhile Option.isSome).filterMap id

/-- The annotation payloads of the submissions made by the `for x in groups:`
loop, in order. -/
def batches (l : List Annot) : List (List Annot) :=
  (annotationGroups l).map batchFromGroup

/-- How many `repo.create_check_run` calls and how many `check_run.update`
calls the `for x in groups:` loop performs: the first group (if any) creates
the check run, every further group updates it. -/
def submissionCalls (anns : List Annot) : Nat × Nat :=
  match annotationGroups anns with
  | [] => (0, 0)
  | _ :: rest => (1, rest.length)

/-! Section: concrete inputs used by the particular-instance parts of the claims. -/

/-- A Cargo diagnostic whose level is informational only. -/
def noteMsgC2 : Message :=
  { message := some "some note", level := some "note", children := [] }

/-- The C5 message: one primary span at `a.rs` lines 3–3. -/
def exMsgC5 : Message :=
  { message := some "mismatched types", level := some "error",
    spans := [{ file_name := some "a.rs", line_start := some 3, line_end := some 3,
                column_start := some 5, column_end := some 7, is_primary := true,
                label := some "expected i32" }],
    children := [] }

/-- The single annotation the C5 message yields. -/
def exAnnC5 : Annot :=
  { path := "a.rs", start_line := 3, end_line := 3, level := "failure",
    message := "expected i32", start_column := some 5, end_column := some 7,
    title := some "a.rs#3: mismatched types" }

/-- The C6 test case: `file="t.py" line="9"` with one `failure` child carrying
`message="boom"`. -/
def c6Case : XmlElem :=
  { tag := "testcase", attrib := [("file", "t.py"), ("line", "9")], text := none,
    children := [{ tag := "failure", attrib := [("message", "boom")], text := none,
                   children := [] }] }

/-- The C6 document root: a single `testsuite` element. -/
def c6Root : XmlElem :=
  { tag := "testsuite", attrib := [], text := none, children := [c6Case] }

/-- The annotation the C6 document yields. -/
def c6Ann : Annot :=
  { path := "t.py", start_line := 9, end_line := 9, level := "failure", message := "boom" }

/-- A list of 120 pairwise distinct annotations (distinguished by line number). -/
def anns120 : List Annot :=
  (List.range 120).map
    (fun (i : Nat) => { path := "f.py", start_line := Int.ofNat i, end_line := Int.ofNat i,
                        level := "warning", message := "m" })

/-! Section: helper lemmas. -/

/-- Unfolding: `processChildren` on an empty child list. -/
theorem processChildren_nil (st : PState) (par : Message) : processChildren st [] par = st := by
  rw [processChildren.eq_def]

/-- Unfolding: `processChildren` on a nonempty child list. -/
theorem processChildren_cons (st : PState) (c : Message) (rest : List Message) (par : Message) :
    processChildren st (c :: rest) par =
      processChildren (annotationFromMessage st c (some par)) rest par := by
  rw [processChildren.eq_def]

/-- Unfolding: a message without a `level` field is skipped whole. -/
theorem afm_level_none (st : PState) (m : Message) (parent : Option Message)
    (h : m.level = none) : annotationFromMessage st m parent = st := by
  rw [annotationFromMessage.eq_def, h]

/-- Unfolding: a message with a `level` field. -/
theorem afm_level_some (st : PState) (m : Message) (parent : Option Message) (level : String)
    (h : m.level = some level) :
    annotationFromMessage st m parent =
      processChildren
        { annotations :=
            spanAnnotations
              (if cargoLevelTriggers level then ({ st with status := Status.FAILURE } : PState)
               else st).annotations
              (cargoAnnLevel level) (buildTitle m parent) (buildRawDetails m) m.spans,
          status :=
            (if cargoLevelTriggers level then ({ st with status := Status.FAILURE } : PState)
             else st).status }
        m.children m := by
  rw [annotationFromMessage.eq_def, h]

/-- Unfolding: `informationalB`. -/
theorem infoB_eq (m : Message) :
    informationalB m =
      ((match m.level with
        | none => true
        | some level => !cargoLevelTriggers level) && informationalListB m.children) := by
  rw [informationalB.eq_def]

/-- Unfolding: `informationalListB` on an empty list. -/
theorem infoListB_nil : informationalListB [] = true := by
  rw [informationalListB.eq_def]

/-- Unfolding: `informationalListB` on a nonempty list. -/
theorem infoListB_cons (c : Message) (rest : List Message) :
    informationalListB (c :: rest) = (informationalB c && informationalListB rest) := by
  rw [informationalListB.eq_def]

/-- A property preserved by every step taken from a list is preserved by the
whole fold. -/
theorem foldl_preserve_mem {α β : Type} (P : β → Prop) (f : β → α → β) :
    ∀ l : List α, (∀ a ∈ l, ∀ b, P b → P (f b a)) → ∀ b, P b → P (l.foldl f b) := by
  intro l
  induction l with
  | nil => intro _ b hb; exact hb
  | cons a rest ih =>
    intro h b hb
    exact ih (fun a' ha' => h a' (List.mem_cons_of_mem _ ha')) (f b a)
      (h a (List.mem_cons_self _ _) b hb)

/-- The sizeOf of a message strictly bounds the sizeOf of its child list. -/
theorem sizeOf_children_lt (m : Message) : sizeOf m.children < sizeOf m := by
  cases m; simp

/-- Combined status facts about the recursive message walk, by strong
induction on message size: the walk can only keep the status or set it to
`FAILURE`, and on a fully informational tree it keeps it. -/
theorem afm_status_aux :
    ∀ (n : Nat) (m : Message), sizeOf m ≤ n → ∀ (st : PState) (parent : Option Message),
      ((annotationFromMessage st m parent).status = st.status ∨
        (annotationFromMessage st m parent).status = Status.FAILURE) ∧
      (informationalB m = true → (annotationFromMessage st m parent).status = st.status) := by
  intro n
  induction n with
  | zero =>
    intro m hm
    exfalso
    cases m
    simp at hm
  | succ n ih =>
    intro m hm st parent
    have hch : ∀ c ∈ m.children, ∀ (st' : PState) (p' : Option Message),
        ((annotationFromMessage st' c p').status = st'.status ∨
          (annotationFromMessage st' c p').status = Status.FAILURE) ∧
        (informationalB c = true → (annotationFromMessage st' c p').status = st'.status) := by
      intro c hc st' p'
      have h1 : sizeOf c < sizeOf m.children := List.sizeOf_lt_of_mem hc
      have h2 := sizeOf_children_lt m
      exact ih c (by omega) st' p'
    have hpc : ∀ (cs : List Message), (∀ c ∈ cs, ∀ (st' : PState) (p' : Option Message),
          ((annotationFromMessage st' c p').status = st'.status ∨
            (annotationFromMessage st' c p').status = Status.FAILURE) ∧
          (informationalB c = true → (annotationFromMessage st' c p').status = st'.status)) →
        ∀ (st' : PState),
          ((processChildren st' cs m).status = st'.status ∨
            (processChildren st' cs m).status = Status.FAILURE) ∧
          (informationalListB cs = true → (processChildren st' cs m).status = st'.status) := by
      intro cs
      induction cs with
      | nil =>
        intro _ st'
        rw [processChildren_nil]
        exact ⟨Or.inl rfl, fun _ => rfl⟩
      | cons c rest ihr =>
        intro h st'
        rw [processChildren_cons]
        have hc := h c (List.mem_cons_self _ _) st' (some m)
        have hr := ihr (fun c' hc' => h c' (List.mem_cons_of_mem _ hc'))
          (annotationFromMessage st' c (some m))
        constructor
        · rcases hr.1 with h1 | h1
          · rw [h1]; exact hc.1
          · exact Or.inr h1
        · intro hinfo
          rw [infoListB_cons] at hinfo
          simp only [Bool.and_eq_true] at hinfo
          rw [hr.2 hinfo.2, hc.2 hinfo.1]
    cases hlevel : m.level with
    | none =>
      rw [afm_level_none st m parent hlevel]
      exact ⟨Or.inl rfl, fun _ => rfl⟩
    | some level =>
      rw [afm_level_some st m parent level hlevel]
      have hmain := (hpc m.children hch
        { annotations :=
            spanAnnotations
              (if cargoLevelTriggers level then ({ st with status := Status.FAILURE } : PState)
               else st).annotations
              (cargoAnnLevel level) (buildTitle m parent) (buildRawDetails m) m.spans,
          status :=
            (if cargoLevelTriggers level then ({ st with status := Status.FAILURE } : PState)
             else st).status })
      constructor
      · rcases hmain.1 with h1 | h1
        · rw [h1]
          by_cases ht : cargoLevelTriggers level = true
          · simp [ht]
          · simp only [Bool.not_eq_true] at ht
            simp [ht]
        · exact Or.inr h1
      · intro hinfo
        rw [infoB_eq] at hinfo
        simp only [Bool.and_eq_true] at hinfo
        have hlev := hinfo.1
        rw [hlevel] at hlev
        simp only [Bool.not_eq_true'] at hlev
        rw [hmain.2 hinfo.2]
        simp [hlev]

/-- The function `spanAnnotationFrom` can only construct an annotation whose `title` field
is the truthiness-filtered `title` argument. -/
theorem spanAnnotationFrom_title (annLevel : String) (title : Option String) (base : String)
    (span : Span) (a : Annot) (h : spanAnnotationFrom annLevel title base span = some a) :
    a.title = truthyOptStr title := by
  simp only [spanAnnotationFrom] at h
  split at h
  · exact absurd h (by simp)
  · split at h
    · exact absurd h (by simp)
    · split at h
      · exact absurd h (by simp)
      · rename_i heq
        simp only [Option.some.injEq] at h
        subst h
        rfl

/-! Section: claim theorems. -/

/-- C1: the claim states that with zero aggregated annotations the initiating
submission still occurs once, with an empty annotation list.  In the code,
`zip_longest` over fifty references to an exhausted iterator yields no groups
at all, so the `for x in groups:` loop never runs: `create_check_run` is
called zero times and no check is reported. -/
theorem c1_zero_annotations_no_submission :
    annotationGroups ([] : List Annot) = [] ∧
    batches ([] : List Annot) = [] ∧
    submissionCalls ([] : List Annot) = (0, 0) := by
  decide

/-- C3 counterexample: the line `"a.py:1:2"` splits on `':'` into only three
tokens — fewer than the four the claim requires for processing — yet it is
not skipped: the starred unpack needs just three tokens, so the line yields a
warning annotation with an empty message and sets the status to `FAILURE`. -/
theorem c3_counterexample :
    (pySplit ':' "a.py:1:2").length < 4 ∧
    pep8ParseLine "a.py:1:2" =
      Pep8LineResult.ann { path := "a.py", start_line := 1, end_line := 1, level := "warning",
                           message := "", start_column := some 2, end_column := some 2 } ∧
    pep8Run initState ["a.py:1:2"] =
      ({ annotations := [{ path := "a.py", start_line := 1, end_line := 1, level := "warning",
                           message := "", start_column := some 2, end_column := some 2 }],
         status := Status.FAILURE }, false) := by
  decide

/-- C3 (amended): a line that does not split on `':'` into at least **3**
tokens is silently skipped — it yields no annotation, leaves the parser state
unchanged, and raises no error. -/
theorem c3_short_lines_skipped (line : String) (h : (pySplit ':' line).length < 3) :
    pep8ParseLine line = Pep8LineResult.skipped ∧
    ∀ st : PState, pep8Run st [line] = (st, false) := by
  have hskip : pep8ParseLine line = Pep8LineResult.skipped := by
    simp only [pep8ParseLine]
    cases hsp : pySplit ':' line with
    | nil => rfl
    | cons a t =>
      cases t with
      | nil => rfl
      | cons b t2 =>
        cases t2 with
        | nil => rfl
        | cons c t3 =>
          rw [hsp] at h
          simp at h
          omega
  exact ⟨hskip, fun st => by simp [pep8Run, hskip]⟩

/-- C3 witness. -/
theorem c3_witness :
    pep8ParseLine "ok" = Pep8LineResult.skipped ∧
    pep8Run initState ["ok"] = (initState, false) := by
  have h := c3_short_lines_skipped "ok" (by decide)
  exact ⟨h.1, h.2 initState⟩

/-- C9: every successfully parsed style line yields one single-point
annotation whose level is `failure` exactly when the trimmed message starts
with `"E"` (otherwise `warning`), and sets the parser status to `FAILURE`;
per the claimed instances, `"foo.py:12:5: E501 line too long"` is a failure
and `"foo.py:12:5: W291 trailing whitespace"` a warning. -/
theorem c9_style_line :
    (∀ (line : String) (a : Annot), pep8ParseLine line = Pep8LineResult.ann a →
       a.level = (if pyStartsWith a.message "E" then "failure" else "warning") ∧
       a.start_line = a.end_line ∧ a.start_column = a.end_column ∧
       ∀ st : PState,
         pep8Run st [line] =
           ({ annotations := setAdd st.annotations a, status := Status.FAILURE }, false)) ∧
    pep8ParseLine "foo.py:12:5: E501 line too long" =
      Pep8LineResult.ann { path := "foo.py", start_line := 12, end_line := 12,
                           level := "failure", message := "E501 line too long",
                           start_column := some 5, end_column := some 5 } ∧
    pep8ParseLine "foo.py:12:5: W291 trailing whitespace" =
      Pep8LineResult.ann { path := "foo.py", start_line := 12, end_line := 12,
                           level := "warning", message := "W291 trailing whitespace",
                           start_column := some 5, end_column := some 5 } := by
  refine ⟨?_, by decide, by decide⟩
  intro line a h
  have hrun : ∀ st : PState,
      pep8Run st [line] =
        ({ annotations := setAdd st.annotations a, status := Status.FAILURE }, false) := by
    intro st
    simp [pep8Run, h]
  refine ⟨?_, ?_, ?_, hrun⟩ <;>
  · simp only [pep8ParseLine] at h
    split at h
    · rename_i path lineNo column msgparts
      split at h
      · simp only [Pep8LineResult.ann.injEq] at h
        rw [← h]
      · exact absurd h (by simp)
    · exact absurd h (by simp)

/-- C9 witness. -/
theorem c9_witness :
    pep8Run initState ["foo.py:12:5: E501 line too long"] =
      ({ annotations := [{ path := "foo.py", start_line := 12, end_line := 12,
                           level := "failure", message := "E501 line too long",
                           start_column := some 5, end_column := some 5 }],
         status := Status.FAILURE }, false) :=
  (c9_style_line.1 "foo.py:12:5: E501 line too long" _ (by decide)).2.2.2 initState

/-- Extracting a batch from a group of `some`s padded with `none`s recovers
exactly the underlying annotations. -/
theorem batchFromGroup_pad (xs : List Annot) (k : Nat) :
    batchFromGroup (xs.map some ++ List.replicate k none) = xs := by
  induction xs with
  | nil =>
    cases k with
    | zero => rfl
    | succ k => simp [batchFromGroup, List.takeWhile]
  | cons x xs ih =>
    simpa [batchFromGroup, List.takeWhile] using ih

/-- The accumulator invariant of `groupsAux`: the concatenation of all batches
is the carried prefix followed by the remaining input. -/
theorem groupsAux_join :
    ∀ (l cur : List Annot), cur.length ≤ 49 →
      ((groupsAux cur l).map batchFromGroup).join = cur ++ l := by
  intro l
  induction l with
  | nil =>
    intro cur _
    by_cases hc : cur.isEmpty
    · simp [groupsAux, hc, List.isEmpty_iff.mp hc]
    · simp [groupsAux, hc, batchFromGroup_pad]
  | cons a rest ih =>
    intro cur hcur
    by_cases h49 : cur.length = 49
    · have h0 : ((groupsAux ([] : List Annot) rest).map batchFromGroup).join = rest :=
        ih [] (by simp)
      have hfull : batchFromGroup (cur.map some ++ [some a]) = cur ++ [a] := by
        have := batchFromGroup_pad (cur ++ [a]) 0
        simpa using this
      simp [groupsAux, h49, hfull, h0]
    · have hlt : (cur ++ [a]).length ≤ 49 := by
        simp only [List.length_append, List.length_singleton]
        omega
      have := ih (cur ++ [a]) hlt
      simp [groupsAux, h49, this]

/-- Every batch produced by `groupsAux` holds at most 50 annotations. -/
theorem groupsAux_sizes :
    ∀ (l cur : List Annot), cur.length ≤ 49 →
      ∀ b ∈ (groupsAux cur l).map batchFromGroup, b.length ≤ 50 := by
  intro l
  induction l with
  | nil =>
    intro cur hcur b hb
    by_cases hc : cur.isEmpty
    · simp [groupsAux, hc] at hb
    · simp [groupsAux, hc, batchFromGroup_pad] at hb
      subst hb
      omega
  | cons a rest ih =>
    intro cur hcur b hb
    by_cases h49 : cur.length = 49
    · have hfull : batchFromGroup ((cur ++ [a]).map some) = cur ++ [a] := by
        have := batchFromGroup_pad (cur ++ [a]) 0
        simpa using this
      simp only [groupsAux, h49, if_pos, List.map_cons, List.mem_cons] at hb
      rcases hb with hb | hb
      · rw [hb, hfull]
        simp only [List.length_append, List.length_singleton]
        omega
      · exact ih [] (by simp) b (by simpa using hb)
    · have hlt : (cur ++ [a]).length ≤ 49 := by
        simp only [List.length_append, List.length_singleton]
        omega
      simp only [groupsAux, h49, if_neg, if_false] at hb
      exact ih (cur ++ [a]) hlt b hb

/-- C7: the batcher partitions the deduplicated annotation list into chunks of
at most 50 whose concatenation is the original list, and 120 distinct
annotations yield exactly the batch sizes 50, 50, 20. -/
theorem c7_batching :
    (∀ l : List Annot, (batches l).join = l ∧ ∀ b ∈ batches l, b.length ≤ 50) ∧
    (batches anns120).map List.length = [50, 50, 20] ∧
    (batches anns120).join = anns120 ∧
    anns120.length = 120 ∧ anns120.Nodup := by
  have hgen : ∀ l : List Annot, (batches l).join = l ∧ ∀ b ∈ batches l, b.length ≤ 50 := by
    intro l
    exact ⟨by simpa using groupsAux_join l [] (by simp),
           fun b hb => groupsAux_sizes l [] (by simp) b hb⟩
  refine ⟨hgen, by decide, (hgen anns120).1, by decide, ?_⟩
  have hinj : Function.Injective
      (fun (i : Nat) => ({ path := "f.py", start_line := Int.ofNat i, end_line := Int.ofNat i,
                           level := "warning", message := "m" } : Annot)) := by
    intro i j hij
    have := congrArg Annot.start_line hij
    simpa [Int.ofNat_inj] using this
  exact (List.nodup_range 120).map hinj

/-- C7 witness. -/
theorem c7_witness : ((batches anns120).headD []).length ≤ 50 :=
  (c7_batching.1 anns120).2 _ (by decide)

/-- C4: every line of the per-format `details` text reports the file count and
annotation count of the output slot the stale loop variable points at — the
last registry format (`xunit`) — not the counts of the format the line names;
and whenever any detail line is emitted at all, that last registry format is
also the last *configured* format (any format that parsed files must have been
configured). -/
theorem c4_details_counts :
    ∀ outputs : PFormat → POutput,
      (∀ d ∈ detailLines outputs,
         d.fileCount = (outputs PFormat.xunit).file_info.length ∧
         d.annCount = (outputs PFormat.xunit).annotations.length) ∧
      (∀ cfg : PFormat → Bool,
         ((outputs PFormat.xunit).file_info ≠ [] → cfg PFormat.xunit = true) →
         detailLines outputs ≠ [] → lastConfigured cfg = some PFormat.xunit) := by
  intro outputs
  by_cases hempty : (outputs PFormat.xunit).file_info.isEmpty
  · constructor
    · intro d hd
      simp [detailLines, parsersList, hempty] at hd
    · intro cfg _ hne
      exfalso
      apply hne
      simp [detailLines, parsersList, hempty]
  · constructor
    · intro d hd
      simp only [detailLines, parsersList, List.foldl, hempty, if_false,
        Bool.false_eq_true, List.nil_append, List.cons_append, List.append_nil] at hd
      simp at hd
      rcases hd with hd | hd | hd <;> simp [hd]
    · intro cfg hcfg _
      have hx : cfg PFormat.xunit = true := by
        apply hcfg
        intro hnil
        rw [hnil] at hempty
        simp at hempty
      simp [lastConfigured, parsersList, hx]

/-- C4 witness. -/
theorem c4_witness :
    (∀ d ∈ detailLines (fun _ => { annotations := [c6Ann], file_info := ["run"] }),
       d.fileCount = 1 ∧ d.annCount = 1) ∧
    lastConfigured (fun _ => true) = some PFormat.xunit := by
  have h := c4_details_counts (fun _ => { annotations := [c6Ann], file_info := ["run"] })
  refine ⟨fun d hd => (h.1 d hd), h.2 (fun _ => true) (fun _ => rfl) (by decide)⟩

/-- Processing one error/failure child never produces the envelope error. -/
theorem xunitChildStep_no_formatError (caseEl child : XmlElem) (acc : PState × Option XUnitErr)
    (h : acc.2 ≠ some XUnitErr.formatError) :
    (xunitChildStep caseEl acc child).2 ≠ some XUnitErr.formatError := by
  rcases acc with ⟨st, err⟩
  cases err with
  | none =>
    simp only [xunitChildStep]
    cases annotationFromCase caseEl child <;> simp
  | some e => exact h

/-- Processing one test case never produces the envelope error. -/
theorem xunitCaseStep_no_formatError (acc : PState × Option XUnitErr) (caseEl : XmlElem)
    (h : acc.2 ≠ some XUnitErr.formatError) :
    (xunitCaseStep acc caseEl).2 ≠ some XUnitErr.formatError := by
  unfold xunitCaseStep
  exact foldl_preserve_mem (fun acc' => acc'.2 ≠ some XUnitErr.formatError)
    (xunitChildStep caseEl) (iterfind caseEl "failure")
    (fun a _ b hb => xunitChildStep_no_formatError caseEl a b hb) _
    (foldl_preserve_mem (fun acc' => acc'.2 ≠ some XUnitErr.formatError)
      (xunitChildStep caseEl) (iterfind caseEl "error")
      (fun a _ b hb => xunitChildStep_no_formatError caseEl a b hb) acc h)

/-- Processing one suite never produces the envelope error. -/
theorem xunitSuiteStep_no_formatError (acc : PState × Option XUnitErr) (suite : XmlElem)
    (h : acc.2 ≠ some XUnitErr.formatError) :
    (xunitSuiteStep acc suite).2 ≠ some XUnitErr.formatError := by
  unfold xunitSuiteStep
  exact foldl_preserve_mem (fun acc' => acc'.2 ≠ some XUnitErr.formatError)
    xunitCaseStep (iterfind suite "testcase")
    (fun a _ b hb => xunitCaseStep_no_formatError b a hb) acc h

/-- C8: an XML root whose tag is neither `"testsuites"` nor `"testsuite"`
makes the test-report parse fail immediately with the envelope error
(`ValueError("Invalid XUnit format.")`, the specification's `FormatError`),
leaving the parser state untouched; with either accepted root tag the
envelope error can never arise. -/
theorem c8_xunit_envelope :
    ∀ (st : PState) (root : XmlElem),
      (root.tag ≠ "testsuites" → root.tag ≠ "testsuite" →
        xunitParseFileobj st root = (st, some XUnitErr.formatError)) ∧
      (root.tag = "testsuites" ∨ root.tag = "testsuite" →
        (xunitParseFileobj st root).2 ≠ some XUnitErr.formatError) := by
  intro st root
  constructor
  · intro h1 h2
    simp [xunitParseFileobj, h1, h2]
  · intro hacc
    have hfold : ∀ suites : List XmlElem,
        (suites.foldl xunitSuiteStep (st, none)).2 ≠ some XUnitErr.formatError := by
      intro suites
      exact foldl_preserve_mem (fun acc' => acc'.2 ≠ some XUnitErr.formatError)
        xunitSuiteStep suites
        (fun a _ b hb => xunitSuiteStep_no_formatError b a hb) (st, none) (by simp)
    rcases hacc with h | h
    · simp only [xunitParseFileobj, h, if_pos]
      exact hfold _
    · by_cases h1 : root.tag = "testsuites"
      · simp only [xunitParseFileobj, h1, if_pos]
        exact hfold _
      · simp only [xunitParseFileobj, h1, h, if_neg, if_pos]
        exact hfold _

/-- C8 witness. -/
theorem c8_witness :
    xunitParseFileobj initState { tag := "html", attrib := [], text := none, children := [] } =
      (initState, some XUnitErr.formatError) ∧
    (xunitParseFileobj initState c6Root).2 ≠ some XUnitErr.formatError := by
  have h := c8_xunit_envelope initState
  exact ⟨(h { tag := "html", attrib := [], text := none, children := [] }).1
            (by decide) (by decide),
         (h c6Root).2 (Or.inr rfl)⟩

/-- C6: in the test-report parser, a child with neither a (truthy) `message`
nor `type` attribute is skipped; a test case lacking a `file` or `line`
attribute yields no annotation for any of its children; an annotation, when
produced, is always `failure`-level at the single line taken from the case's
attributes, carries the child's `message`-else-`type` text, and its
`raw_details` is the child's text truncated to 65536 characters; the claimed
single-testcase document yields exactly one such annotation. -/
theorem c6_xunit_case :
    (∀ caseEl errEl : XmlElem,
       truthyAttr errEl "message" = none → truthyAttr errEl "type" = none →
       annotationFromCase caseEl errEl = CaseResult.skip) ∧
    (∀ caseEl errEl : XmlElem,
       truthyAttr caseEl "file" = none ∨ truthyAttr caseEl "line" = none →
       annotationFromCase caseEl errEl = CaseResult.skip) ∧
    (∀ (caseEl errEl : XmlElem) (a : Annot),
       annotationFromCase caseEl errEl = CaseResult.ann a →
       a.level = "failure" ∧ a.start_line = a.end_line ∧
       (truthyAttr errEl "message").orElse (fun _ => truthyAttr errEl "type") = some a.message ∧
       truthyAttr caseEl "file" = some a.path ∧
       (∃ lineAttr, truthyAttr caseEl "line" = some lineAttr ∧
          pyInt? lineAttr = some a.start_line) ∧
       a.raw_details = (truthyOptStr errEl.text).map (fun t => pySlice t 65536) ∧
       a.start_column = none ∧ a.end_column = none ∧ a.title = none) ∧
    xunitParseFileobj initState c6Root =
      ({ annotations := [c6Ann], status := Status.FAILURE }, none) := by
  refine ⟨?_, ?_, ?_, by decide⟩
  · intro caseEl errEl h1 h2
    simp [annotationFromCase, h1, h2, Option.orElse]
  · intro caseEl errEl h
    simp only [annotationFromCase]
    cases hm : (truthyAttr errEl "message").orElse (fun _ => truthyAttr errEl "type") with
    | none => rfl
    | some m =>
      rcases h with h | h
      · simp [h]
      · cases hf : truthyAttr caseEl "file" with
        | none => rfl
        | some p => simp [h]
  · intro caseEl errEl a h
    simp only [annotationFromCase] at h
    split at h
    · exact absurd h (by simp)
    · rename_i m hm
      split at h
      · exact absurd h (by simp)
      · rename_i p hp
        split at h
        · exact absurd h (by simp)
        · rename_i lineAttr hline
          split at h
          · exact absurd h (by simp)
          · rename_i n hn
            simp only [CaseResult.ann.injEq] at h
            subst h
            refine ⟨rfl, rfl, hm, hp, ⟨lineAttr, hline, hn⟩, ?_, rfl, rfl, rfl⟩
            cases ht : errEl.text with
            | none => simp [truthyOptStr]
            | some t =>
              by_cases h0 : t = "" <;> simp [truthyOptStr, h0]

/-- C6 witness. -/
theorem c6_witness :
    annotationFromCase c6Case { tag := "failure", attrib := [], text := none, children := [] } =
      CaseResult.skip ∧
    annotationFromCase { tag := "testcase", attrib := [], text := none, children := [] }
      { tag := "failure", attrib := [("message", "boom")], text := none, children := [] } =
      CaseResult.skip ∧
    c6Ann.level = "failure" := by
  refine ⟨c6_xunit_case.1 c6Case _ (by decide) (by decide),
          c6_xunit_case.2.1 _ _ (Or.inl (by decide)),
          (c6_xunit_case.2.2.1 c6Case
            { tag := "failure", attrib := [("message", "boom")], text := none, children := [] }
            c6Ann (by decide)).1⟩

/-- C2 counterexample: one structured-diagnostic line whose message level is
`"note"` — containing neither `"error"` nor `"warning"` — leaves the parser
run's status at `SUCCESS`, not the `NEUTRAL` the claim states (`NEUTRAL` is
the annotation level `notice`'s counterpart in the claim, but the code never
assigns it to `self.status`). -/
theorem c2_counterexample :
    noteMsgC2.level = some "note" ∧
    pyContains "note" "error" = false ∧
    pyContains "note" "warning" = false ∧
    (cargoRun initState [CargoLine.obj (some "compiler-message") (some noteMsgC2)]).status =
      Status.SUCCESS ∧
    Status.SUCCESS ≠ Status.NEUTRAL := by
  have h1 : cargoRun initState [CargoLine.obj (some "compiler-message") (some noteMsgC2)] =
      annotationFromMessage initState noteMsgC2 none := rfl
  refine ⟨rfl, by decide, by decide, ?_, by decide⟩
  rw [h1, afm_level_some initState noteMsgC2 none "note" rfl]
  rw [show noteMsgC2.children = [] from rfl, processChildren_nil]
  decide

/-- C2 (amended): a structured-diagnostic message that is informational
throughout (no level in its tree contains `"error"` or `"warning"`) maps to
annotation level `notice` and leaves the parser's status unchanged, so a run
whose findings are all informational (or absent) reports `SUCCESS`; the
status is never `NEUTRAL`. -/
theorem c2_informational_keeps_status :
    (∀ (st : PState) (m : Message) (parent : Option Message), informationalB m = true →
       (annotationFromMessage st m parent).status = st.status) ∧
    (∀ lines : List CargoLine, (∀ l ∈ lines, cargoLineInformational l = true) →
       (cargoRun initState lines).status = Status.SUCCESS) ∧
    (∀ level : String, pyContains level "error" = false → pyContains level "warning" = false →
       cargoAnnLevel level = "notice") := by
  have hmain : ∀ (st : PState) (m : Message) (parent : Option Message),
      informationalB m = true → (annotationFromMessage st m parent).status = st.status :=
    fun st m parent hinfo => (afm_status_aux (sizeOf m) m le_rfl st parent).2 hinfo
  refine ⟨hmain, ?_, ?_⟩
  · intro lines hlines
    have : (cargoRun initState lines).status = Status.SUCCESS := by
      unfold cargoRun
      apply foldl_preserve_mem (fun st : PState => st.status = Status.SUCCESS) cargoStep lines
      · intro l hl st hst
        have hli := hlines l hl
        cases l with
        | invalid => exact hst
        | obj reason message =>
          simp only [cargoStep]
          by_cases hr : reason = some "compiler-message"
          · rw [if_pos hr]
            cases message with
            | none => exact hst
            | some m =>
              simp only [cargoLineInformational, hr, if_pos] at hli
              rw [hmain st m none hli]
              exact hst
          · rw [if_neg hr]
            exact hst
      · rfl
    exact this
  · intro level h1 h2
    simp [cargoAnnLevel, h1, h2]

/-- C2 witness. -/
theorem c2_witness :
    (annotationFromMessage initState noteMsgC2 none).status = initState.status ∧
    (cargoRun initState [CargoLine.obj (some "compiler-message") (some noteMsgC2)]).status =
      Status.SUCCESS ∧
    cargoAnnLevel "note" = "notice" := by
  refine ⟨c2_informational_keeps_status.1 initState noteMsgC2 none ?_,
          c2_informational_keeps_status.2.1 _ ?_,
          c2_informational_keeps_status.2.2 "note" (by decide) (by decide)⟩
  · rw [infoB_eq, show noteMsgC2.children = [] from rfl, infoListB_nil]
    decide
  · intro l hl
    simp only [List.mem_singleton] at hl
    subst hl
    simp only [cargoLineInformational, if_pos]
    rw [infoB_eq, show noteMsgC2.children = [] from rfl, infoListB_nil]
    decide

/-- C5: when a message is processed as a child, its title is built from the
*parent's* primary span — the result depends only on that span, not on the
child's own — and whenever the selected primary span has a (truthy) file name
and starting line, the title is exactly the `"{file}#{line}: "` prefix
followed by the message's own text, and every annotation the message emits
carries that prefixed title; the claimed single-span message yields exactly
one annotation at `a.rs` lines 3–3 whose title starts with `"a.rs#3: "`. -/
theorem c5_parent_primary_title :
    (∀ (m par : Message) (sp : Span) (f : String) (l : Int),
       getPrimarySpan par = some sp → sp.file_name = some f → sp.line_start = some l →
       f ≠ "" → l ≠ 0 →
       buildTitle m (some par) =
         some ((f ++ "#" ++ toString l ++ ": ") ++ pyStrOpt m.message)) ∧
    (∀ m par : Message, getPrimarySpan par = none → buildTitle m (some par) = m.message) ∧
    (∀ (annLevel base : String) (t : String) (span : Span) (a : Annot),
       spanAnnotationFrom annLevel (some t) base span = some a → t ≠ "" →
       a.title = some t) ∧
    (cargoRun initState [CargoLine.obj (some "compiler-message") (some exMsgC5)] =
       { annotations := [exAnnC5], status := Status.FAILURE } ∧
     exAnnC5.title = some "a.rs#3: mismatched types" ∧
     pyStartsWith "a.rs#3: mismatched types" "a.rs#3: " = true ∧
     exAnnC5.path = "a.rs" ∧ exAnnC5.start_line = 3 ∧ exAnnC5.end_line = 3) := by
  refine ⟨?_, ?_, ?_, ?_, by decide, by decide, by decide, by decide, by decide⟩
  · intro m par sp f l hps hf hl hf0 hl0
    simp only [buildTitle, hps, hf, hl]
    have hinner : (if f ≠ "" ∧ l ≠ 0 then f ++ "#" ++ toString l else "") =
        f ++ "#" ++ toString l := if_pos ⟨hf0, hl0⟩
    rw [hinner]
    have hne : f ++ "#" ++ toString l ≠ "" := by
      intro hcontra
      have hlen : (f ++ "#" ++ toString l).length = 0 := by rw [hcontra]; rfl
      rw [String.length_append, String.length_append] at hlen
      have hone : "#".length = 1 := rfl
      omega
    rw [if_pos hne]
  · intro m par hps
    simp [buildTitle, hps]
  · intro annLevel base t span a h ht
    have := spanAnnotationFrom_title annLevel (some t) base span a h
    rw [this]
    simp [truthyOptStr, ht]
  · have h1 : cargoRun initState [CargoLine.obj (some "compiler-message") (some exMsgC5)] =
        annotationFromMessage initState exMsgC5 none := rfl
    rw [h1, afm_level_some initState exMsgC5 none "error" rfl]
    rw [show exMsgC5.children = [] from rfl, processChildren_nil]
    decide

/-- C5 witness. -/
theorem c5_witness :
    buildTitle { message := some "hint text", level := some "help", children := [] }
        (some exMsgC5) = some ("a.rs#3: " ++ "hint text") ∧
    buildTitle exMsgC5 (some noteMsgC2) = exMsgC5.message := by
  constructor
  · have h := c5_parent_primary_title.1
      { message := some "hint text", level := some "help", children := [] } exMsgC5
      { file_name := some "a.rs", line_start := some 3, line_end := some 3,
        column_start := some 5, column_end := some 7, is_primary := true,
        label := some "expected i32" }
      "a.rs" 3 (by decide) rfl rfl (by decide) (by decide)
    rw [h]
    rfl
  · exact c5_parent_primary_title.2.1 exMsgC5 noteMsgC2 (by decide)

/-- C10: no parser ever assigns `NEUTRAL`: across any sequence of processed
inputs each parser's status stays in `{SUCCESS, FAILURE}` (it starts at
`SUCCESS`), and therefore the aggregator's `overall_status` — the running
`max` over per-run statuses starting from `SUCCESS` — is never `NEUTRAL`. -/
theorem c10_status_never_neutral :
    initState.status = Status.SUCCESS ∧
    (∀ (st : PState) (lines : List String), st.status ≠ Status.NEUTRAL →
       (pep8Run st lines).1.status ≠ Status.NEUTRAL) ∧
    (∀ (st : PState) (lines : List CargoLine), st.status ≠ Status.NEUTRAL →
       (cargoRun st lines).status ≠ Status.NEUTRAL) ∧
    (∀ (st : PState) (root : XmlElem), st.status ≠ Status.NEUTRAL →
       (xunitParseFileobj st root).1.status ≠ Status.NEUTRAL) ∧
    (∀ runs : List Status, (∀ s ∈ runs, s ≠ Status.NEUTRAL) →
       overallStatus runs ≠ Status.NEUTRAL) := by
  refine ⟨rfl, ?_, ?_, ?_, ?_⟩
  · intro st lines
    induction lines generalizing st with
    | nil => intro h; exact h
    | cons line rest ih =>
      intro h
      simp only [pep8Run]
      cases pep8ParseLine line with
      | skipped => exact ih st h
      | failed => exact h
      | ann a => exact ih _ (by simp)
  · intro st lines hst
    unfold cargoRun
    apply foldl_preserve_mem (fun st' : PState => st'.status ≠ Status.NEUTRAL) cargoStep lines
    · intro l _ st' hst'
      cases l with
      | invalid => exact hst'
      | obj reason message =>
        simp only [cargoStep]
        by_cases hr : reason = some "compiler-message"
        · rw [if_pos hr]
          cases message with
          | none => exact hst'
          | some m =>
            rcases (afm_status_aux (sizeOf m) m le_rfl st' none).1 with h | h
            · rw [h]; exact hst'
            · rw [h]; decide
        · rw [if_neg hr]; exact hst'
    · exact hst
  · intro st root hst
    have hfold : ∀ (suites : List XmlElem) (acc : PState × Option XUnitErr),
        acc.1.status ≠ Status.NEUTRAL →
        (suites.foldl xunitSuiteStep acc).1.status ≠ Status.NEUTRAL := by
      intro suites acc hacc
      apply foldl_preserve_mem (fun acc' : PState × Option XUnitErr =>
        acc'.1.status ≠ Status.NEUTRAL) xunitSuiteStep suites
      · intro suite _ b hb
        unfold xunitSuiteStep
        apply foldl_preserve_mem (fun acc' : PState × Option XUnitErr =>
          acc'.1.status ≠ Status.NEUTRAL) xunitCaseStep
        · intro caseEl _ b' hb'
          unfold xunitCaseStep
          apply foldl_preserve_mem (fun acc' : PState × Option XUnitErr =>
            acc'.1.status ≠ Status.NEUTRAL) (xunitChildStep caseEl)
          · intro child _ b'' hb''
            rcases b'' with ⟨st'', err''⟩
            cases err'' with
            | none =>
              simp only [xunitChildStep]
              cases annotationFromCase caseEl child with
              | failed => exact hb''
              | skip => simp
              | ann a => simp
            | some e => exact hb''
          · apply foldl_preserve_mem (fun acc' : PState × Option XUnitErr =>
              acc'.1.status ≠ Status.NEUTRAL) (xunitChildStep caseEl)
            · intro child _ b'' hb''
              rcases b'' with ⟨st'', err''⟩
              cases err'' with
              | none =>
                simp only [xunitChildStep]
                cases annotationFromCase caseEl child with
                | failed => exact hb''
                | skip => simp
                | ann a => simp
              | some e => exact hb''
            · exact hb'
        · exact hb
      · exact hacc
    simp only [xunitParseFileobj]
    by_cases h1 : root.tag = "testsuites"
    · rw [if_pos h1]
      exact hfold _ (st, none) hst
    · rw [if_neg h1]
      by_cases h2 : root.tag = "testsuite"
      · rw [if_pos h2]
        exact hfold _ (st, none) hst
      · rw [if_neg h2]
        exact hst
  · intro runs hruns
    unfold overallStatus
    apply foldl_preserve_mem (fun s : Status => s ≠ Status.NEUTRAL) statusMax runs
    · intro s hs acc hacc
      have h1 := hruns s hs
      cases acc <;> cases s <;> simp_all [statusMax, Status.toNat]
    · decide

/-- C10 witness. -/
theorem c10_witness :
    (pep8Run initState ["foo.py:12:5: E501 line too long"]).1.status ≠ Status.NEUTRAL ∧
    (cargoRun initState [CargoLine.obj (some "compiler-message") (some exMsgC5)]).status ≠
      Status.NEUTRAL ∧
    (xunitParseFileobj initState c6Root).1.status ≠ Status.NEUTRAL ∧
    overallStatus [Status.SUCCESS, Status.FAILURE] ≠ Status.NEUTRAL := by
  refine ⟨c10_status_never_neutral.2.1 initState _ (by decide),
          c10_status_never_neutral.2.2.1 initState _ (by decide),
          c10_status_never_neutral.2.2.2.1 initState c6Root (by decide),
          c10_status_never_neutral.2.2.2.2 [Status.SUCCESS, Status.FAILURE] (by decide)⟩

end Octocheck
